import Mathlib

/-!
Verification development for the Codify task-runner workflow
(`src/workflows/task_runner.py`) and the prompt parser
(`src/backend/agents/prompt_parser.py`).

Modelling conventions:
* Python `datetime` values are abstracted to `Nat` tick values supplied as
  parameters wherever the code calls `datetime.now()`; `isoformat` /
  `fromisoformat` round-trip, so the export record simply carries the value.
* `uuid.uuid4()` ids are supplied as `String` parameters.
* The runner's `self.tasks` dict is an association list preserving Python's
  dict insertion order (assignment to an existing key keeps its position,
  assignment to a new key appends).
* The pipeline stages `PromptParser.parse`, `CoderAgent.generate_code` and
  `PistonService.validate_code_syntax` are external to the runner's control
  flow; their outcomes (value or raised-exception message) are supplied in a
  `PipelineEnv`, and the runner's own control flow is translated verbatim.
* Python regular-expression primitives (`re.search`, `re.findall`) are
  supplied by a `RegexEngine` record; the parser's own logic over those
  primitives is translated verbatim.
-/

namespace Codify

/-- `TaskStatus` enum from `task_runner.py`. -/
inductive TaskStatus where
  | pending
  | running
  | completed
  | failed
  | cancelled
deriving DecidableEq, Repr

/-- The `.value` string of each `TaskStatus` member. -/
def TaskStatus.value : TaskStatus → String
  | .pending => "pending"
  | .running => "running"
  | .completed => "completed"
  | .failed => "failed"
  | .cancelled => "cancelled"

/-- `TaskStatus(value)` lookup: `some` member whose `.value` matches, else
`none` (Python raises `ValueError`). -/
def TaskStatus.ofValue (s : String) : Option TaskStatus :=
  if s = "pending" then some .pending
  else if s = "running" then some .running
  else if s = "completed" then some .completed
  else if s = "failed" then some .failed
  else if s = "cancelled" then some .cancelled
  else none

/-- Validation outcome dict returned by `PistonService.validate_code_syntax`:
keys `valid`, `errors`, `warnings`. -/
structure Validation where
  valid : Bool
  errors : Option String
  warnings : List String
deriving DecidableEq, Repr

/-- The metadata attribute that `TaskRunner._run_task` attaches dynamically to
a `CodeResult` object (the dataclass declares no such field): either
`{"validation": ...}` or `{"validation_error": str(e)}`. -/
inductive ResultMeta where
  | validation (v : Validation)
  | validationError (msg : String)
deriving DecidableEq, Repr

/-- `CodeResult` dataclass from `coder.py`, extended with the dynamically
attached `metadata` attribute (absent, i.e. `none`, unless `_run_task` sets
it). `dependencies` defaults to `None` in the dataclass, hence `Option`. -/
structure CodeResult where
  code : String
  explanation : String
  tests : Option String
  documentation : Option String
  dependencies : Option (List String)
  metadata : Option ResultMeta
deriving DecidableEq, Repr

/-- `Task` dataclass from `task_runner.py`. `metadata` is a JSON-object dict
abstracted to string-keyed string values. -/
structure Task where
  id : String
  description : String
  status : TaskStatus
  created_at : Nat
  updated_at : Nat
  result : Option CodeResult
  error : Option String
  progress : Int
  metadata : List (String × String)
deriving DecidableEq, Repr

/-- Runner state: the `tasks` dict (insertion-ordered association list) and
the keys of the `running_tasks` dict of in-flight `asyncio.Task` handles. -/
structure TaskRunner where
  tasks : List (String × Task)
  running_tasks : List String
deriving DecidableEq, Repr

/-- `self.tasks.get(task_id)`: first binding of the key. -/
def lookupTask (st : TaskRunner) (task_id : String) : Option Task :=
  (st.tasks.find? (fun p => p.1 = task_id)).map (fun p => p.2)

/-- `self.tasks[task_id] = task` on an insertion-ordered dict: replace the
first binding of the key in place when it exists, append otherwise. -/
def updateTask : List (String × Task) → String → Task → List (String × Task)
  | [], k, v => [(k, v)]
  | p :: l, k, v => if p.1 = k then (k, v) :: l else p :: updateTask l k v

/-- `TaskRunner.create_task`: fresh uuid and `datetime.now()` are the
`task_id` / `now` parameters; the new task is `Pending`, progress `0`, no
result, no error. -/
def create_task (st : TaskRunner) (task_id : String) (now : Nat)
    (description : String) (metadata : List (String × String)) : TaskRunner :=
  let task : Task := Task.mk task_id description TaskStatus.pending now now none none 0 metadata
  { st with tasks := updateTask st.tasks task_id task }

/-- Outcomes of the three pipeline stages used by `_run_task`: each is either
a value or the message of the exception it raised. -/
structure PipelineEnv where
  parsedLanguage : Except String String
  genResult : Except String CodeResult
  validationResult : Except String Validation

/-- The metadata `_run_task` attaches after invoking the validator: the
outcome under `"validation"`, or under `"validation_error"` the message of the
exception the validator raised. -/
def validationMetaOf (r : Except String Validation) : ResultMeta :=
  match r with
  | .ok v => ResultMeta.validation v
  | .error e => ResultMeta.validationError e

/-- `TaskRunner._run_task`, stage outcomes supplied by `env`; `now1` is the
clock at the `Running` transition, `now2` at the terminal transition. The
`except Exception` handler catches a raise from the parse or generate stage
(progress is then still 10 resp. 30); a raise from the validator is caught by
the inner handler and recorded in the result metadata. -/
def runTaskPipeline (env : PipelineEnv) (now1 now2 : Nat) (task : Task) : Task :=
  let t1 : Task := { task with status := TaskStatus.running, updated_at := now1, progress := 10 }
  match env.parsedLanguage with
  | .error e => { t1 with status := TaskStatus.failed, error := some e, updated_at := now2 }
  | .ok lang =>
    let t2 : Task := { t1 with progress := 30 }
    match env.genResult with
    | .error e => { t2 with status := TaskStatus.failed, error := some e, updated_at := now2 }
    | .ok cr =>
      let t3 : Task := { t2 with progress := 60 }
      let cr2 : CodeResult :=
        if cr.code ≠ "" ∧ lang ≠ "" then
          { cr with metadata := some (validationMetaOf env.validationResult) }
        else cr
      let t4 : Task := { t3 with progress := 90 }
      { t4 with result := some cr2, status := TaskStatus.completed,
                progress := 100, updated_at := now2 }

/-- `TaskRunner.execute_task`: raises (`Except.error`) when the id is unknown
or the task is not `Pending`, leaving the state untouched; otherwise runs the
pipeline and stores the updated task. The transient `running_tasks` entry is
added and popped within the same call, so the sequential state is unchanged. -/
def execute_task (env : PipelineEnv) (now1 now2 : Nat) (st : TaskRunner)
    (task_id : String) : Except String Task × TaskRunner :=
  match lookupTask st task_id with
  | none => (Except.error ("Task " ++ task_id ++ " not found"), st)
  | some task =>
    if task.status = TaskStatus.pending then
      let t := runTaskPipeline env now1 now2 task
      (Except.ok t, { st with tasks := updateTask st.tasks task_id t })
    else
      (Except.error ("Task " ++ task_id ++ " is not in pending status"), st)

/-- `TaskRunner.cancel_task`. Returns `(return value, new state, signalled)`
where `signalled` records whether an in-flight `asyncio.Task` handle was found
in `running_tasks` and `.cancel()` called on it. -/
def cancel_task (now : Nat) (st : TaskRunner) (task_id : String) :
    Bool × TaskRunner × Bool :=
  match lookupTask st task_id with
  | none => (false, st, false)
  | some task =>
    if task.status = TaskStatus.running then
      let cancelled : Task := { task with status := TaskStatus.cancelled, updated_at := now }
      (true,
       { st with tasks := updateTask st.tasks task_id cancelled },
       st.running_tasks.contains task_id)
    else
      (false, st, false)

/-- `TaskRunner.delete_task`: cancel if running, then remove the binding. -/
def delete_task (now : Nat) (st : TaskRunner) (task_id : String) :
    Bool × TaskRunner :=
  if (lookupTask st task_id).isSome then
    let st1 := (cancel_task now st task_id).2.1
    (true, { st1 with tasks := st1.tasks.filter (fun p => decide (p.1 ≠ task_id)) })
  else
    (false, st)

/-- The `"result"` sub-dictionary written by `export_task_results`: exactly
the five declared `CodeResult` dataclass fields — the dynamically attached
`metadata` attribute is not serialized. -/
structure ExportedResult where
  code : String
  explanation : String
  tests : Option String
  documentation : Option String
  dependencies : Option (List String)
deriving DecidableEq, Repr

/-- One element of the `"tasks"` list of an export record. `result` and
`error` are optional keys (`"error"` is written only when truthy). -/
structure ExportedTask where
  id : String
  description : String
  status : String
  created_at : Nat
  updated_at : Nat
  progress : Int
  metadata : List (String × String)
  result : Option ExportedResult
  error : Option String
deriving DecidableEq, Repr

/-- The dictionary returned by `export_task_results`. -/
structure ExportRecord where
  tasks : List ExportedTask
  exported_at : Nat
  total_count : Nat
deriving DecidableEq, Repr

/-- Serialization of one task, mirroring the per-task dict built by
`export_task_results`: `"result"` present iff `task.result` is set (a
dataclass instance is always truthy), `"error"` present iff `task.error` is
truthy, i.e. neither `None` nor the empty string. -/
def exportTask (t : Task) : ExportedTask :=
  { id := t.id
    description := t.description
    status := t.status.value
    created_at := t.created_at
    updated_at := t.updated_at
    progress := t.progress
    metadata := t.metadata
    result := t.result.map (fun r =>
      ExportedResult.mk r.code r.explanation r.tests r.documentation r.dependencies)
    error := match t.error with
      | some e => if e = "" then none else some e
      | none => none }

/-- `TaskRunner.export_task_results`: with `task_ids = none` export every
task in dict order; with an explicit list, `[self.tasks[tid] for tid in
task_ids if tid in self.tasks]` silently skips absent ids. `total_count` is
the length of the exported list. -/
def export_task_results (st : TaskRunner) (now : Nat)
    (task_ids : Option (List String)) : ExportRecord :=
  let tasks_to_export : List Task :=
    match task_ids with
    | none => st.tasks.map (fun p => p.2)
    | some ids => ids.filterMap (lookupTask st)
  let exported_tasks := tasks_to_export.map exportTask
  { tasks := exported_tasks, exported_at := now, total_count := exported_tasks.length }

/-- Reconstruction of one task by `load_tasks_from_file`: fails (Python
`ValueError` from `TaskStatus(...)`) when the status string is not a member
value; the rebuilt `CodeResult` carries only the five serialized fields, its
dynamic `metadata` attribute does not exist (`none`). -/
def decodeTask (d : ExportedTask) : Option Task :=
  (TaskStatus.ofValue d.status).map (fun s =>
    { id := d.id
      description := d.description
      status := s
      created_at := d.created_at
      updated_at := d.updated_at
      progress := d.progress
      metadata := d.metadata
      result := d.result.map (fun r =>
        CodeResult.mk r.code r.explanation r.tests r.documentation r.dependencies none)
      error := d.error })

/-- The loop body of `load_tasks_from_file`: tasks are inserted one by one;
an undecodable status raises after the earlier insertions already happened,
so the partially updated state is returned together with the error. -/
def loadLoop (st : TaskRunner) : List ExportedTask → TaskRunner × Option String
  | [] => (st, none)
  | d :: ds =>
    match decodeTask d with
    | none => (st, some ("invalid TaskStatus: " ++ d.status))
    | some t => loadLoop { st with tasks := updateTask st.tasks t.id t } ds

/-- `TaskRunner.load_tasks_from_file` applied to an already-parsed record
(`json.load` round-trips the JSON shapes involved). -/
def load_tasks_from_file (st : TaskRunner) (rec : ExportRecord) :
    TaskRunner × Option String :=
  loadLoop st rec.tasks

/-- `TaskRunner.execute_batch_tasks` with the per-id stage outcomes `envs`:
`asyncio.gather(..., return_exceptions=True)` yields one entry per input id,
in input order, each either the returned task snapshot or the captured
exception; a raised precondition error never aborts the remaining members. -/
def execute_batch_tasks (envs : String → PipelineEnv) (now1 now2 : Nat)
    (st : TaskRunner) : List String → List (Except String Task) × TaskRunner
  | [] => ([], st)
  | task_id :: rest =>
    let r := execute_task (envs task_id) now1 now2 st task_id
    let rr := execute_batch_tasks envs now1 now2 r.2 rest
    (r.1 :: rr.1, rr.2)

/-- The per-task invariant asserted by the specification: progress 100
exactly at `Completed`; `result` and `error` never both set; at `Completed`
or `Failed` exactly one of them set. -/
def taskInvariant (t : Task) : Prop :=
  (t.progress = 100 ↔ t.status = TaskStatus.completed)
  ∧ ¬ (t.result.isSome ∧ t.error.isSome)
  ∧ ((t.status = TaskStatus.completed ∨ t.status = TaskStatus.failed) →
      ((t.result.isSome ∧ t.error = none) ∨ (t.result = none ∧ t.error.isSome)))

instance (t : Task) : Decidable (taskInvariant t) := by
  unfold taskInvariant
  infer_instance

/-- The per-task proviso for loaded files: the task satisfies the invariant
itself and, when `Pending`, carries neither result nor error (so a later
execution starts from a clean slate). Nothing more is needed: no operation
ever touches the result or error of a non-`Pending` task. -/
def taskLoadOK (t : Task) : Prop :=
  taskInvariant t
  ∧ (t.status = TaskStatus.pending → t.result = none ∧ t.error = none)

instance (t : Task) : Decidable (taskLoadOK t) := by
  unfold taskLoadOK
  infer_instance

/-- States reachable from a fresh runner by the public operations. The
`load` step carries the record actually read from the file; since file
contents are otherwise unconstrained, it hypothesises exactly the amended
proviso `taskLoadOK` — the invariant plus Pending-clean — for each decoded
task. -/
inductive Reachable : TaskRunner → Prop where
  | init : Reachable (TaskRunner.mk [] [])
  | create (st : TaskRunner) (task_id : String) (now : Nat) (description : String)
      (metadata : List (String × String)) :
      Reachable st → Reachable (create_task st task_id now description metadata)
  | execute (st : TaskRunner) (env : PipelineEnv) (now1 now2 : Nat) (task_id : String) :
      Reachable st → Reachable (execute_task env now1 now2 st task_id).2
  | cancel (st : TaskRunner) (now : Nat) (task_id : String) :
      Reachable st → Reachable (cancel_task now st task_id).2.1
  | delete (st : TaskRunner) (now : Nat) (task_id : String) :
      Reachable st → Reachable (delete_task now st task_id).2
  | load (st : TaskRunner) (rec : ExportRecord) :
      Reachable st →
      (∀ d ∈ rec.tasks, ∀ t, decodeTask d = some t → taskLoadOK t) →
      Reachable (load_tasks_from_file st rec).1

/-- A task equal to `t` except that the dynamically attached result metadata
is gone — what an export/import round trip actually reconstructs. -/
def eraseResultMetadata (t : Task) : Task :=
  { t with result := t.result.map (fun r => { r with metadata := none }) }

/-! ## Prompt parser (`src/backend/agents/prompt_parser.py`) -/

/-- `TaskType` enum from `prompt_parser.py`. -/
inductive TaskType where
  | code_generation
  | code_review
  | debugging
  | refactoring
  | testing
  | documentation
deriving DecidableEq, Repr

/-- `ParsedPrompt` dataclass from `prompt_parser.py`. -/
structure ParsedPrompt where
  task_type : TaskType
  language : String
  description : String
  requirements : List String
  context : Option String
  files_mentioned : List String
  complexity : String
deriving DecidableEq, Repr

/-- The Python `re` primitives the parser calls, abstracted as an oracle:
`search p s` is `re.search(p, s, re.IGNORECASE) is not None`, `findallCount`
is `len(re.findall(p, s, re.IGNORECASE))`, `findallCaps` is
`re.findall(p, s, re.IGNORECASE | re.MULTILINE)` for a one-group pattern, and
`findallAll` is `re.findall(p, s)` for a groupless pattern. -/
structure RegexEngine where
  search : String → String → Bool
  findallCount : String → String → Nat
  findallCaps : String → String → List String
  findallAll : String → String → List String

/-- `self.language_patterns`, in dict insertion order. -/
def language_patterns : List (String × String) :=
  [("python", "\\b(python|py|\\.py)\\b"),
   ("javascript", "\\b(javascript|js|\\.js|node)\\b"),
   ("typescript", "\\b(typescript|ts|\\.ts)\\b"),
   ("java", "\\b(java|\\.java)\\b"),
   ("cpp", "\\b(c\\+\\+|cpp|\\.cpp)\\b"),
   ("c", "\\b(?<!c\\+\\+)c(?!\\+\\+)|\\b\\.c\\b"),
   ("go", "\\b(golang|go|\\.go)\\b"),
   ("rust", "\\b(rust|\\.rs)\\b"),
   ("php", "\\b(php|\\.php)\\b"),
   ("ruby", "\\b(ruby|\\.rb)\\b")]

/-- `self.task_patterns`, in dict insertion order. -/
def task_patterns : List (TaskType × List String) :=
  [(TaskType.code_generation,
    ["\\b(create|generate|write|build|make|implement)\\b",
     "\\b(function|class|module|script|program)\\b"]),
   (TaskType.code_review,
    ["\\b(review|check|analyze|examine|audit)\\b",
     "\\b(code|implementation)\\b"]),
   (TaskType.debugging,
    ["\\b(debug|fix|error|bug|issue|problem)\\b",
     "\\b(not working|broken|failing)\\b"]),
   (TaskType.refactoring,
    ["\\b(refactor|improve|optimize|clean|restructure)\\b",
     "\\b(performance|efficiency)\\b"]),
   (TaskType.testing,
    ["\\b(test|testing|unit test|integration test)\\b",
     "\\b(pytest|jest|junit)\\b"]),
   (TaskType.documentation,
    ["\\b(document|documentation|docs|comment)\\b",
     "\\b(readme|docstring|api doc)\\b"])]

/-- The requirement-indicator patterns of `_extract_requirements`. -/
def requirement_patterns : List String :=
  ["should\\s+(.+?)(?:\\.|$)",
   "must\\s+(.+?)(?:\\.|$)",
   "need\\s+to\\s+(.+?)(?:\\.|$)",
   "requirements?:\\s*(.+?)(?:\\n|$)",
   "specs?:\\s*(.+?)(?:\\n|$)"]

/-- The file-name pattern of `_extract_file_mentions`. -/
def file_pattern : String := "\\b[\\w\\-\\.]+\\.[a-zA-Z]\x7b1,4\x7d\\b"

/-- The complexity keyword table of `_assess_complexity`, in dict order:
`high` is checked before `low`. -/
def high_keywords : List String :=
  ["complex", "advanced", "sophisticated", "enterprise",
   "scalable", "distributed", "microservice", "architecture"]

def low_keywords : List String :=
  ["simple", "basic", "quick", "small", "minimal", "easy"]

/-- Python `str.lower()` (per-character lowering). -/
def pyLower (s : String) : String := String.mk (s.toList.map Char.toLower)

/-- Python `str.strip()` (strip surrounding whitespace). -/
def pyStrip (s : String) : String := s.trim

/-- Accumulator loop for `pyWords`: `acc` holds the current word reversed. -/
def wordsAux (acc : List Char) : List Char → List String
  | [] => if acc.isEmpty then [] else [String.mk acc.reverse]
  | c :: cs =>
    if c.isWhitespace then
      if acc.isEmpty then wordsAux [] cs
      else String.mk acc.reverse :: wordsAux [] cs
    else wordsAux (c :: acc) cs

/-- Python `str.split()` with no argument: split on whitespace runs,
discarding empty pieces. -/
def pyWords (s : String) : List String := wordsAux [] s.toList

/-- Contiguous-sublist check on character lists. -/
def charsContain (sub : List Char) : List Char → Bool
  | [] => sub.isEmpty
  | c :: rest => sub.isPrefixOf (c :: rest) || charsContain sub rest

/-- Python `sub in s` substring containment. -/
def pyContains (s sub : String) : Bool :=
  charsContain sub.toList s.toList

/-- `PromptParser._detect_language`: first pattern (in dict order) whose
`re.search` hits; otherwise the `"python"` default. -/
def detect_language (E : RegexEngine) (prompt : String) : String :=
  match language_patterns.find? (fun p => E.search p.2 prompt) with
  | some p => p.1
  | none => "python"

/-- The score `_detect_task_type` computes for one task type: total number of
`re.findall` matches over its patterns. -/
def taskScore (E : RegexEngine) (prompt : String) (pats : List String) : Nat :=
  (pats.map (fun p => E.findallCount p prompt)).sum

/-- Python `max(task_scores, key=task_scores.get)` over the insertion-ordered
dict: left fold keeping the current maximum, a later entry wins only when
strictly greater. -/
def maxScore (l : List (TaskType × Nat)) (acc : TaskType × Nat) : TaskType × Nat :=
  l.foldl (fun b y => if y.2 > b.2 then y else b) acc

/-- `PromptParser._detect_task_type`. -/
def detect_task_type (E : RegexEngine) (prompt : String) : TaskType :=
  let scores := task_patterns.map (fun p => (p.1, taskScore E prompt p.2))
  match scores with
  | [] => TaskType.code_generation
  | x :: xs =>
    let best := maxScore xs x
    if best.2 > 0 then best.1 else TaskType.code_generation

/-- `PromptParser._extract_requirements`: the capture-group matches of each
requirement pattern, in pattern order, each stripped. -/
def extract_requirements (E : RegexEngine) (prompt : String) : List String :=
  (requirement_patterns.map (fun p => (E.findallCaps p prompt).map pyStrip)).flatten

/-- `PromptParser._extract_file_mentions`: `list(set(re.findall(...)))` —
the set construction deduplicates; Python's set iteration order is
implementation defined, modelled here as first-occurrence order. -/
def extract_file_mentions (E : RegexEngine) (prompt : String) : List String :=
  (E.findallAll file_pattern prompt).eraseDups

/-- `PromptParser._assess_complexity`; its `prompt` argument is the lowered
prompt. -/
def assess_complexity (prompt : String) (requirements : List String) : String :=
  let word_count := (pyWords prompt).length
  let requirement_count := requirements.length
  if high_keywords.any (fun k => pyContains prompt k) then "high"
  else if low_keywords.any (fun k => pyContains prompt k) then "low"
  else if word_count > 100 ∨ requirement_count > 5 then "high"
  else if word_count < 20 ∧ requirement_count ≤ 2 then "low"
  else "medium"

/-- `PromptParser.parse`: language and task type are detected on the lowered
prompt, requirements and file mentions on the original, complexity on the
lowered prompt together with the extracted requirements. -/
def PromptParser.parse (E : RegexEngine) (prompt : String) : ParsedPrompt :=
  let prompt_lower := pyLower prompt
  let requirements := extract_requirements E prompt
  { task_type := detect_task_type E prompt_lower
    language := detect_language E prompt_lower
    description := pyStrip prompt
    requirements := requirements
    context := none
    files_mentioned := extract_file_mentions E prompt
    complexity := assess_complexity prompt_lower requirements }

/-! ## Concrete fixtures used by witnesses and counterexamples -/

/-- A successfully validated syntax-check outcome. -/
def val0 : Validation := ⟨true, none, []⟩

/-- A generated result with non-empty code and no metadata attribute. -/
def genResult0 : CodeResult := ⟨"print(1)", "generated", none, none, some [], none⟩

/-- Stage outcomes of a fully successful pipeline run. -/
def envOk : PipelineEnv := ⟨Except.ok "python", Except.ok genResult0, Except.ok val0⟩

/-- Stage outcomes where the parse stage raises. -/
def envParseFail : PipelineEnv := ⟨Except.error "parse boom", Except.ok genResult0, Except.ok val0⟩

/-- A completed task whose result carries the dynamically attached validation
metadata. -/
def completedResultC2 : CodeResult :=
  ⟨"print(1)", "expl", none, none, some [], some (ResultMeta.validation val0)⟩

def completedTaskC2 : Task :=
  ⟨"a", "make it", TaskStatus.completed, 1, 2, some completedResultC2, none, 100, []⟩

def runnerC2 : TaskRunner := ⟨[("a", completedTaskC2)], []⟩

/-- A failed task with a non-empty error, used for the round-trip witness. -/
def failedTaskW : Task :=
  ⟨"w", "desc", TaskStatus.failed, 3, 4, none, some "boom", 30, [("k", "v")]⟩

def runnerW : TaskRunner := ⟨[("w", failedTaskW)], []⟩

/-- A pending task ready to execute. -/
def pendingTask0 : Task := ⟨"p", "write code", TaskStatus.pending, 0, 0, none, none, 0, []⟩

def runnerPending : TaskRunner := ⟨[("p", pendingTask0)], []⟩

/-- A running task with an in-flight handle registered under its id. -/
def runningTask0 : Task := ⟨"r", "busy", TaskStatus.running, 0, 0, none, none, 10, []⟩

def runnerRunning : TaskRunner := ⟨[("r", runningTask0)], ["r"]⟩

/-- A file record whose single task is marked completed at progress 50 —
well-formed JSON that `load_tasks_from_file` accepts without complaint. -/
def badExportedTask : ExportedTask := ⟨"t1", "d", "completed", 0, 0, 50, [], none, none⟩

def badRecord : ExportRecord := ⟨[badExportedTask], 0, 1⟩

/-- The task `load_tasks_from_file` reconstructs from `badExportedTask`. -/
def badLoadedTask : Task := ⟨"t1", "d", TaskStatus.completed, 0, 0, none, none, 50, []⟩

/-- The behaviour of Python `re` on the concrete ambiguous prompts below:
none of the parser's patterns produces a search hit or a findall match on
`"zzz"` or on a sequence of `"zz"` words. -/
def allMissEngine : RegexEngine :=
  ⟨fun _ _ => false, fun _ _ => 0, fun _ _ => [], fun _ _ => []⟩

/-- A one-word ambiguous prompt. -/
def ambiguousShortPrompt : String := "zzz"

/-- A twenty-word ambiguous prompt. -/
def ambiguousMediumPrompt : String :=
  "zz zz zz zz zz zz zz zz zz zz zz zz zz zz zz zz zz zz zz zz"

/-! ## Helper lemmas -/

theorem mem_updateTask {l : List (String × Task)} {k : String} {v : Task}
    {p : String × Task} (hp : p ∈ updateTask l k v) : p = (k, v) ∨ p ∈ l := by
  induction l with
  | nil => exact Or.inl (List.mem_singleton.1 hp)
  | cons a l ih =>
    unfold updateTask at hp
    by_cases ha : a.1 = k
    · rw [if_pos ha] at hp
      rcases List.mem_cons.1 hp with h | h
      · exact Or.inl h
      · exact Or.inr (List.mem_cons_of_mem a h)
    · rw [if_neg ha] at hp
      rcases List.mem_cons.1 hp with h | h
      · exact Or.inr (h ▸ List.mem_cons_self a l)
      · rcases ih h with h1 | h2
        · exact Or.inl h1
        · exact Or.inr (List.mem_cons_of_mem a h2)

theorem lookup_mem {st : TaskRunner} {id : String} {t : Task}
    (h : lookupTask st id = some t) : (id, t) ∈ st.tasks := by
  unfold lookupTask at h
  rcases Option.map_eq_some'.1 h with ⟨q, hq, hqt⟩
  have hmem := List.mem_of_find?_eq_some hq
  have hkey : q.1 = id := by
    have := List.find?_some hq
    simpa using this
  obtain ⟨q1, q2⟩ := q
  simp only at hkey hqt
  rw [hkey, hqt] at hmem
  exact hmem

theorem find?_updateTask (k : String) (v : Task) :
    ∀ l : List (String × Task),
      (updateTask l k v).find? (fun p => p.1 = k) = some (k, v) := by
  intro l
  induction l with
  | nil => simp [updateTask]
  | cons a l ih =>
    unfold updateTask
    by_cases ha : a.1 = k
    · simp [ha]
    · simp [ha, ih]

theorem lookup_updateTask_self (tasks : List (String × Task)) (r : List String)
    (k : String) (v : Task) :
    lookupTask (TaskRunner.mk (updateTask tasks k v) r) k = some v := by
  unfold lookupTask
  simp [find?_updateTask k v tasks]

theorem taskLoadOK_new (id desc : String) (now : Nat) (md : List (String × String)) :
    taskLoadOK (Task.mk id desc TaskStatus.pending now now none none 0 md) := by
  unfold taskLoadOK taskInvariant
  refine ⟨⟨by simp, by simp, by simp⟩, by simp⟩

theorem ok_runTaskPipeline (env : PipelineEnv) (now1 now2 : Nat) {t : Task}
    (hok : taskLoadOK t) (hp : t.status = TaskStatus.pending) :
    taskLoadOK (runTaskPipeline env now1 now2 t) := by
  obtain ⟨-, hpend⟩ := hok
  have hres : t.result = none := (hpend hp).1
  have herr : t.error = none := (hpend hp).2
  unfold runTaskPipeline
  cases env.parsedLanguage with
  | error e =>
    unfold taskLoadOK taskInvariant
    refine ⟨⟨by simp, by simp [hres], by simp [hres]⟩, by simp⟩
  | ok lang =>
    cases env.genResult with
    | error e =>
      unfold taskLoadOK taskInvariant
      refine ⟨⟨by simp, by simp [hres], by simp [hres]⟩, by simp⟩
    | ok cr =>
      unfold taskLoadOK taskInvariant
      refine ⟨⟨by simp, by simp [herr], by simp [herr]⟩, by simp⟩

theorem ok_cancelled {t : Task} (now : Nat) (hok : taskLoadOK t)
    (hr : t.status = TaskStatus.running) :
    taskLoadOK { t with status := TaskStatus.cancelled, updated_at := now } := by
  obtain ⟨⟨h1, h2, h3⟩, -⟩ := hok
  unfold taskLoadOK taskInvariant
  refine ⟨⟨?_, by simpa using h2, by simp⟩, by simp⟩
  simp only
  constructor
  · intro h100
    have := h1.1 h100
    rw [hr] at this
    exact absurd this (by simp)
  · intro hcon
    exact absurd hcon (by simp)

theorem ok_execute (env : PipelineEnv) (now1 now2 : Nat) (st : TaskRunner)
    (id : String) (h : ∀ p ∈ st.tasks, taskLoadOK p.2) :
    ∀ p ∈ (execute_task env now1 now2 st id).2.tasks, taskLoadOK p.2 := by
  unfold execute_task
  cases hl : lookupTask st id with
  | none => exact h
  | some t =>
    dsimp only
    by_cases hs : t.status = TaskStatus.pending
    · rw [if_pos hs]
      intro p hp
      rcases mem_updateTask hp with h1 | h2
      · rw [h1]
        exact ok_runTaskPipeline env now1 now2 (h (id, t) (lookup_mem hl)) hs
      · exact h p h2
    · rw [if_neg hs]
      exact h

theorem ok_cancel (now : Nat) (st : TaskRunner) (id : String)
    (h : ∀ p ∈ st.tasks, taskLoadOK p.2) :
    ∀ p ∈ (cancel_task now st id).2.1.tasks, taskLoadOK p.2 := by
  unfold cancel_task
  cases hl : lookupTask st id with
  | none => exact h
  | some t =>
    dsimp only
    by_cases hs : t.status = TaskStatus.running
    · rw [if_pos hs]
      intro p hp
      rcases mem_updateTask hp with h1 | h2
      · rw [h1]
        exact ok_cancelled now (h (id, t) (lookup_mem hl)) hs
      · exact h p h2
    · rw [if_neg hs]
      exact h

theorem ok_delete (now : Nat) (st : TaskRunner) (id : String)
    (h : ∀ p ∈ st.tasks, taskLoadOK p.2) :
    ∀ p ∈ (delete_task now st id).2.tasks, taskLoadOK p.2 := by
  unfold delete_task
  by_cases hl : (lookupTask st id).isSome
  · rw [if_pos hl]
    intro p hp
    exact ok_cancel now st id h p (List.mem_of_mem_filter hp)
  · rw [if_neg hl]
    exact h

theorem ok_loadLoop (ds : List ExportedTask) :
    ∀ st : TaskRunner, (∀ p ∈ st.tasks, taskLoadOK p.2) →
      (∀ d ∈ ds, ∀ t, decodeTask d = some t → taskLoadOK t) →
      ∀ p ∈ (loadLoop st ds).1.tasks, taskLoadOK p.2 := by
  induction ds with
  | nil =>
    intro st h _
    exact h
  | cons d ds ih =>
    intro st h hd
    unfold loadLoop
    cases hdec : decodeTask d with
    | none => exact h
    | some t =>
      refine ih _ ?_ (fun d' hd' => hd d' (List.mem_cons_of_mem d hd'))
      intro p hp
      rcases mem_updateTask hp with h1 | h2
      · rw [h1]
        exact hd d (List.mem_cons_self d ds) t hdec
      · exact h p h2

theorem reachable_ok {st : TaskRunner} (h : Reachable st) :
    ∀ p ∈ st.tasks, taskLoadOK p.2 := by
  induction h with
  | init => intro p hp; exact absurd hp (List.not_mem_nil p)
  | create st id now desc md _ ih =>
    intro p hp
    unfold create_task at hp
    rcases mem_updateTask hp with h1 | h2
    · rw [h1]
      exact taskLoadOK_new id desc now md
    · exact ih p h2
  | execute st env now1 now2 id _ ih => exact ok_execute env now1 now2 st id ih
  | cancel st now id _ ih => exact ok_cancel now st id ih
  | delete st now id _ ih => exact ok_delete now st id ih
  | load st rec _ hok ih => exact ok_loadLoop rec.tasks st ih hok

/-! ## Claim C1 -/

/-- C1 (amended): after any sequence of `create_task`, `execute_task`,
`cancel_task`, `delete_task` and `load_tasks_from_file` — the latter
restricted (`taskLoadOK`) to records whose decoded tasks satisfy the
invariant together with "a Pending task carries neither result nor error" —
every held task satisfies `progress == 100 ⇔ status == Completed`, never has
both `result` and `error` set, and has exactly one of them set at
`Completed` or `Failed`. -/
theorem c1_task_invariant {st : TaskRunner} (h : Reachable st) :
    ∀ p ∈ st.tasks, taskInvariant p.2 :=
  fun p hp => (reachable_ok h p hp).1

/-- C1 witness: the invariant holds for the task of a freshly created
runner. -/
theorem c1_task_invariant_witness :
    taskInvariant (Task.mk "a" "d" TaskStatus.pending 0 0 none none 0 []) :=
  c1_task_invariant
    (Reachable.create (TaskRunner.mk [] []) "a" 0 "d" [] Reachable.init)
    ("a", Task.mk "a" "d" TaskStatus.pending 0 0 none none 0 []) (by decide)

/-- C1 counterexample: loading `badRecord` — a record whose JSON is accepted
without complaint — leaves the runner holding a `Completed` task at progress
50 with neither result nor error, violating the claimed invariant after the
operation sequence `[load_tasks_from_file]`. -/
theorem c1_load_breaks_invariant :
    lookupTask (load_tasks_from_file (TaskRunner.mk [] []) badRecord).1 "t1"
        = some badLoadedTask
    ∧ ¬ taskInvariant badLoadedTask := by
  constructor
  · rfl
  · decide

/-! ## Claim C3 -/

/-- C3: `execute_task` on an unknown id or a non-`Pending` task fails with
the corresponding precondition `ValueError` and leaves the runner state
(every field of every task) unchanged. -/
theorem c3_execute_precondition (env : PipelineEnv) (now1 now2 : Nat)
    (st : TaskRunner) (id : String)
    (h : ∀ t, lookupTask st id = some t → t.status ≠ TaskStatus.pending) :
    (execute_task env now1 now2 st id).1 =
      Except.error (if (lookupTask st id).isSome then
          "Task " ++ id ++ " is not in pending status"
        else "Task " ++ id ++ " not found")
    ∧ (execute_task env now1 now2 st id).2 = st := by
  unfold execute_task
  cases hl : lookupTask st id with
  | none => exact ⟨rfl, rfl⟩
  | some t =>
    dsimp only
    rw [if_neg (h t hl)]
    exact ⟨rfl, rfl⟩

/-- C3 witness: executing the already-completed task of `runnerC2` fails with
the invalid-state error and mutates nothing. -/
theorem c3_execute_precondition_witness :
    (execute_task envOk 0 7 runnerC2 "a").1 =
      Except.error "Task a is not in pending status"
    ∧ (execute_task envOk 0 7 runnerC2 "a").2 = runnerC2 := by
  have h := c3_execute_precondition envOk 0 7 runnerC2 "a"
    (fun t ht => by
      have hev : lookupTask runnerC2 "a" = some completedTaskC2 := rfl
      rw [hev] at ht
      cases ht
      decide)
  exact ⟨by rw [h.1]; exact congrArg Except.error (by decide), h.2⟩

/-! ## Claim C4 -/

/-- C4: for a `Pending` task with no result, a raise from the parse stage or
the generate stage makes `execute_task` return (not raise) the task snapshot,
now `Failed`, with the error message captured verbatim and `result` still
unset, and that snapshot is what the runner stores. -/
theorem c4_pipeline_failure (env : PipelineEnv) (now1 now2 : Nat)
    (st : TaskRunner) (id : String) (t : Task) (e : String)
    (hl : lookupTask st id = some t) (hp : t.status = TaskStatus.pending)
    (hr : t.result = none)
    (hfail : env.parsedLanguage = Except.error e ∨
      (∃ lang, env.parsedLanguage = Except.ok lang ∧ env.genResult = Except.error e)) :
    (execute_task env now1 now2 st id).1 = Except.ok (runTaskPipeline env now1 now2 t)
    ∧ (runTaskPipeline env now1 now2 t).status = TaskStatus.failed
    ∧ (runTaskPipeline env now1 now2 t).error = some e
    ∧ (runTaskPipeline env now1 now2 t).result = none
    ∧ lookupTask (execute_task env now1 now2 st id).2 id
        = some (runTaskPipeline env now1 now2 t) := by
  have hexec1 : (execute_task env now1 now2 st id).1
      = Except.ok (runTaskPipeline env now1 now2 t) := by
    unfold execute_task
    rw [hl]
    dsimp only
    rw [if_pos hp]
  have hexec2 : (execute_task env now1 now2 st id).2
      = TaskRunner.mk (updateTask st.tasks id (runTaskPipeline env now1 now2 t))
          st.running_tasks := by
    unfold execute_task
    rw [hl]
    dsimp only
    rw [if_pos hp]
  have hpipe : (runTaskPipeline env now1 now2 t).status = TaskStatus.failed
      ∧ (runTaskPipeline env now1 now2 t).error = some e
      ∧ (runTaskPipeline env now1 now2 t).result = none := by
    rcases hfail with hpe | ⟨lang, hok, hge⟩
    · unfold runTaskPipeline
      rw [hpe]
      exact ⟨rfl, rfl, hr⟩
    · unfold runTaskPipeline
      rw [hok, hge]
      exact ⟨rfl, rfl, hr⟩
  refine ⟨hexec1, hpipe.1, hpipe.2.1, hpipe.2.2, ?_⟩
  rw [hexec2]
  exact lookup_updateTask_self st.tasks st.running_tasks id _

/-- C4 witness: a parse-stage raise on the pending task of `runnerPending`. -/
theorem c4_pipeline_failure_witness :
    (execute_task envParseFail 0 7 runnerPending "p").1
      = Except.ok (runTaskPipeline envParseFail 0 7 pendingTask0)
    ∧ (runTaskPipeline envParseFail 0 7 pendingTask0).status = TaskStatus.failed
    ∧ (runTaskPipeline envParseFail 0 7 pendingTask0).error = some "parse boom"
    ∧ (runTaskPipeline envParseFail 0 7 pendingTask0).result = none
    ∧ lookupTask (execute_task envParseFail 0 7 runnerPending "p").2 "p"
        = some (runTaskPipeline envParseFail 0 7 pendingTask0) :=
  c4_pipeline_failure envParseFail 0 7 runnerPending "p" pendingTask0 "parse boom"
    rfl rfl rfl (Or.inl rfl)

/-! ## Claim C5 -/

/-- C5: when the generated result has non-empty code and the parsed prompt a
non-empty language, the validator outcome — or, when the validator raises,
its error message — is attached into the result metadata (keys
`"validation"` / `"validation_error"`, per `validationMetaOf`), and the task
still completes with status `Completed` and progress 100. -/
theorem c5_validation_metadata (env : PipelineEnv) (now1 now2 : Nat)
    (st : TaskRunner) (id : String) (t : Task) (lang : String) (cr : CodeResult)
    (hl : lookupTask st id = some t) (hp : t.status = TaskStatus.pending)
    (hlang : env.parsedLanguage = Except.ok lang)
    (hgen : env.genResult = Except.ok cr)
    (hcode : cr.code ≠ "") (hL : lang ≠ "") :
    (execute_task env now1 now2 st id).1 = Except.ok (runTaskPipeline env now1 now2 t)
    ∧ (runTaskPipeline env now1 now2 t).status = TaskStatus.completed
    ∧ (runTaskPipeline env now1 now2 t).progress = 100
    ∧ (runTaskPipeline env now1 now2 t).result
        = some ({ cr with metadata := some (validationMetaOf env.validationResult) })
    ∧ lookupTask (execute_task env now1 now2 st id).2 id
        = some (runTaskPipeline env now1 now2 t) := by
  have hexec1 : (execute_task env now1 now2 st id).1
      = Except.ok (runTaskPipeline env now1 now2 t) := by
    unfold execute_task
    rw [hl]
    dsimp only
    rw [if_pos hp]
  have hexec2 : (execute_task env now1 now2 st id).2
      = TaskRunner.mk (updateTask st.tasks id (runTaskPipeline env now1 now2 t))
          st.running_tasks := by
    unfold execute_task
    rw [hl]
    dsimp only
    rw [if_pos hp]
  have hpipe : (runTaskPipeline env now1 now2 t).status = TaskStatus.completed
      ∧ (runTaskPipeline env now1 now2 t).progress = 100
      ∧ (runTaskPipeline env now1 now2 t).result
          = some ({ cr with metadata := some (validationMetaOf env.validationResult) }) := by
    unfold runTaskPipeline
    rw [hlang, hgen]
    dsimp only
    rw [if_pos ⟨hcode, hL⟩]
    exact ⟨rfl, rfl, rfl⟩
  refine ⟨hexec1, hpipe.1, hpipe.2.1, hpipe.2.2, ?_⟩
  rw [hexec2]
  exact lookup_updateTask_self st.tasks st.running_tasks id _

/-- C5 witness: a fully successful run on `runnerPending` attaches the
validation outcome of `envOk` and completes. -/
theorem c5_validation_metadata_witness :
    (execute_task envOk 0 7 runnerPending "p").1
      = Except.ok (runTaskPipeline envOk 0 7 pendingTask0)
    ∧ (runTaskPipeline envOk 0 7 pendingTask0).status = TaskStatus.completed
    ∧ (runTaskPipeline envOk 0 7 pendingTask0).progress = 100
    ∧ (runTaskPipeline envOk 0 7 pendingTask0).result
        = some ({ genResult0 with metadata := some (validationMetaOf envOk.validationResult) })
    ∧ lookupTask (execute_task envOk 0 7 runnerPending "p").2 "p"
        = some (runTaskPipeline envOk 0 7 pendingTask0) :=
  c5_validation_metadata envOk 0 7 runnerPending "p" pendingTask0 "python" genResult0
    rfl rfl rfl rfl (by decide) (by decide)

/-! ## Claim C6 -/

/-- C6: `cancel_task` returns `false` with no mutation when the id is unknown
or the task is not `Running`; on a `Running` task it sets status `Cancelled`
and `updated_at` (all other fields unchanged), returns `true`, and signals
the in-flight asynchronous unit exactly when one is registered under the id
in `running_tasks`. -/
theorem c6_cancel (now : Nat) (st : TaskRunner) (id : String) :
    ((∀ t, lookupTask st id = some t → t.status ≠ TaskStatus.running) →
      cancel_task now st id = (false, st, false))
    ∧ (∀ t, lookupTask st id = some t → t.status = TaskStatus.running →
      cancel_task now st id =
        (true,
         TaskRunner.mk
           (updateTask st.tasks id
             ({ t with status := TaskStatus.cancelled, updated_at := now }))
           st.running_tasks,
         st.running_tasks.contains id)) := by
  constructor
  · intro h
    unfold cancel_task
    cases hl : lookupTask st id with
    | none => rfl
    | some t =>
      dsimp only
      rw [if_neg (h t hl)]
  · intro t hl hr
    unfold cancel_task
    rw [hl]
    dsimp only
    rw [if_pos hr]

/-- The batch result list always has one entry per requested id. -/
theorem batch_length (envs : String → PipelineEnv) (now1 now2 : Nat) :
    ∀ (ids : List String) (st : TaskRunner),
      (execute_batch_tasks envs now1 now2 st ids).1.length = ids.length := by
  intro ids
  induction ids with
  | nil => intro st; rfl
  | cons id rest ih =>
    intro st
    unfold execute_batch_tasks
    simp [ih]

/-- Position `i` of the batch output is the outcome of executing `ids[i]`
against the state left behind by the first `i` members. -/
theorem batch_get (envs : String → PipelineEnv) (now1 now2 : Nat) :
    ∀ (ids : List String) (i : Nat) (st : TaskRunner) (h : i < ids.length)
      (h2 : i < (execute_batch_tasks envs now1 now2 st ids).1.length),
      (execute_batch_tasks envs now1 now2 st ids).1.get ⟨i, h2⟩
        = (execute_task (envs (ids.get ⟨i, h⟩)) now1 now2
            (execute_batch_tasks envs now1 now2 st (ids.take i)).2
            (ids.get ⟨i, h⟩)).1 := by
  intro ids
  induction ids with
  | nil => intro i st h h2; exact absurd h (Nat.not_lt_zero i)
  | cons id rest ih =>
    intro i st h h2
    cases i with
    | zero => rfl
    | succ i =>
      have h' : i < rest.length := Nat.lt_of_succ_lt_succ h
      have h2' : i < (execute_batch_tasks envs now1 now2
          (execute_task (envs id) now1 now2 st id).2 rest).1.length := by
        rw [batch_length]
        exact h'
      exact ih i ((execute_task (envs id) now1 now2 st id).2) h' h2'

/-! ## Claim C6 witness fixture continues below -/

/-- C6 witness: cancelling the running task of `runnerRunning` flips it to
`Cancelled`, returns `true`, and signals the registered in-flight handle. -/
theorem c6_cancel_witness :
    cancel_task 9 runnerRunning "r" =
      (true,
       TaskRunner.mk
         (updateTask runnerRunning.tasks "r"
           ({ runningTask0 with status := TaskStatus.cancelled, updated_at := 9 }))
         runnerRunning.running_tasks,
       runnerRunning.running_tasks.contains "r")
    ∧ runnerRunning.running_tasks.contains "r" = true :=
  ⟨(c6_cancel 9 runnerRunning "r").2 runningTask0 rfl rfl, by decide⟩

/-! ## Claim C7 -/

/-- C7: `execute_batch_tasks` returns exactly one entry per input id, the
entry at position `i` being the captured outcome (task snapshot or
precondition error) of executing `taskIds[i]` — so no member's failure
aborts the rest. -/
theorem c7_batch_per_id (envs : String → PipelineEnv) (now1 now2 : Nat)
    (st : TaskRunner) (ids : List String) :
    (execute_batch_tasks envs now1 now2 st ids).1.length = ids.length
    ∧ ∀ i (h : i < ids.length),
        (execute_batch_tasks envs now1 now2 st ids).1.get
            ⟨i, by rw [batch_length]; exact h⟩
          = (execute_task (envs (ids.get ⟨i, h⟩)) now1 now2
              (execute_batch_tasks envs now1 now2 st (ids.take i)).2
              (ids.get ⟨i, h⟩)).1 :=
  ⟨batch_length envs now1 now2 ids st,
   fun i h => batch_get envs now1 now2 ids i st h _⟩

/-- C7 witness: a duplicate id executes once and then yields a captured
precondition error in second position, without aborting the batch. -/
theorem c7_batch_per_id_witness :
    (execute_batch_tasks (fun _ => envOk) 0 7 runnerPending ["p", "p"]).1.length = 2
    ∧ (execute_batch_tasks (fun _ => envOk) 0 7 runnerPending ["p", "p"]).1.get
        ⟨1, by rw [batch_length]; decide⟩
      = (execute_task envOk 0 7
          (execute_batch_tasks (fun _ => envOk) 0 7 runnerPending (["p", "p"].take 1)).2
          "p").1 :=
  ⟨(c7_batch_per_id (fun _ => envOk) 0 7 runnerPending ["p", "p"]).1,
   (c7_batch_per_id (fun _ => envOk) 0 7 runnerPending ["p", "p"]).2 1 (by decide)⟩

/-! ## Claim C10 -/

/-- C10: exporting an explicit id list silently skips ids absent from the
task map (the exported tasks are exactly the successful lookups, in request
order), and `total_count` equals the number actually exported, which never
exceeds — and can be less than — the number requested. -/
theorem c10_export_skips_unknown (st : TaskRunner) (now : Nat) (ids : List String) :
    (export_task_results st now (some ids)).tasks
        = (ids.filterMap (lookupTask st)).map exportTask
    ∧ (export_task_results st now (some ids)).total_count
        = (export_task_results st now (some ids)).tasks.length
    ∧ (export_task_results st now (some ids)).tasks.length ≤ ids.length := by
  refine ⟨rfl, rfl, ?_⟩
  show ((ids.filterMap (lookupTask st)).map exportTask).length ≤ ids.length
  rw [List.length_map]
  exact List.length_filterMap_le _ _

/-! ## Claim C2 -/

/-- Serialized status strings decode back to the same member. -/
theorem ofValue_value (s : TaskStatus) : TaskStatus.ofValue s.value = some s := by
  cases s <;> decide

/-- One exported task decodes back to the original task minus the dynamic
result metadata, provided the error is not the empty string (an empty error
message is truthy-dropped at export time). -/
theorem decode_exportTask {t : Task} (he : t.error ≠ some "") :
    decodeTask (exportTask t) = some (eraseResultMetadata t) := by
  obtain ⟨tid, tdesc, tstat, tc, tu, tres, terr, tprog, tmd⟩ := t
  cases terr with
  | none =>
    cases tres with
    | none => simp [decodeTask, exportTask, eraseResultMetadata, ofValue_value]
    | some r => simp [decodeTask, exportTask, eraseResultMetadata, ofValue_value]
  | some e =>
    have he' : ¬ e = "" := fun h => he (by rw [h])
    cases tres with
    | none => simp [decodeTask, exportTask, eraseResultMetadata, ofValue_value, if_neg he']
    | some r => simp [decodeTask, exportTask, eraseResultMetadata, ofValue_value, if_neg he']

/-- Inserting a fresh key appends at the end of the dict order. -/
theorem updateTask_fresh {l : List (String × Task)} {k : String} (v : Task)
    (h : ∀ p ∈ l, p.1 ≠ k) : updateTask l k v = l ++ [(k, v)] := by
  induction l with
  | nil => rfl
  | cons a l ih =>
    unfold updateTask
    rw [if_neg (h a (List.mem_cons_self a l)), ih (fun p hp => h p (List.mem_cons_of_mem a hp))]
    rfl

/-- Loading the export of a list of tasks with pairwise-fresh ids appends
them, in order, with the dynamic result metadata erased. -/
theorem loadLoop_roundtrip :
    ∀ (ts : List Task) (st : TaskRunner),
      (∀ t ∈ ts, t.error ≠ some "") →
      (st.tasks.map Prod.fst ++ ts.map Task.id).Nodup →
      loadLoop st (ts.map exportTask)
        = (TaskRunner.mk
            (st.tasks ++ ts.map (fun t => (t.id, eraseResultMetadata t)))
            st.running_tasks, none) := by
  intro ts
  induction ts with
  | nil =>
    intro st _ _
    cases st
    simp [loadLoop]
  | cons t ts ih =>
    intro st herr hnd
    have hdt : decodeTask (exportTask t) = some (eraseResultMetadata t) :=
      decode_exportTask (herr t (List.mem_cons_self t ts))
    have hfresh : ∀ p ∈ st.tasks, p.1 ≠ t.id := by
      intro p hp hpk
      rcases List.nodup_append.1 hnd with ⟨-, -, hdisj⟩
      have hk : p.1 ∈ st.tasks.map Prod.fst := List.mem_map_of_mem Prod.fst hp
      apply hdisj hk
      rw [List.map_cons, hpk]
      exact List.mem_cons_self _ _
    rw [List.map_cons]
    unfold loadLoop
    rw [hdt]
    dsimp only
    have hid : (eraseResultMetadata t).id = t.id := rfl
    rw [hid, updateTask_fresh _ hfresh]
    have hnd' : ((st.tasks ++ [(t.id, eraseResultMetadata t)]).map Prod.fst
        ++ ts.map Task.id).Nodup := by
      simpa [List.map_append, List.append_assoc] using hnd
    have := ih (TaskRunner.mk (st.tasks ++ [(t.id, eraseResultMetadata t)])
        st.running_tasks) (fun u hu => herr u (List.mem_cons_of_mem t hu)) hnd'
    rw [this]
    simp [List.append_assoc]

/-- C2 (amended): exporting all tasks and importing the record into a fresh
runner reconstructs every task field-for-field — id, description, status,
both timestamps, progress, task metadata, error, and the five serialized
`CodeResult` fields — except that the validation metadata dynamically
attached to the result is not serialized and comes back absent. Assumes the
runner's dict keys are the task ids, pairwise distinct, and no recorded
error message is the empty string. -/
theorem c2_roundtrip_amended (st : TaskRunner) (now : Nat)
    (hids : ∀ p ∈ st.tasks, p.1 = p.2.id)
    (hnd : (st.tasks.map Prod.fst).Nodup)
    (herr : ∀ p ∈ st.tasks, p.2.error ≠ some "") :
    load_tasks_from_file (TaskRunner.mk [] []) (export_task_results st now none)
      = (TaskRunner.mk
          (st.tasks.map (fun p => (p.1, eraseResultMetadata p.2))) [], none) := by
  have hkeys : st.tasks.map (fun p => Task.id p.2) = st.tasks.map Prod.fst :=
    List.map_congr_left (fun p hp => (hids p hp).symm)
  have hload := loadLoop_roundtrip (st.tasks.map Prod.snd) (TaskRunner.mk [] [])
    (fun u hu => by
      rcases List.mem_map.1 hu with ⟨p, hp, rfl⟩
      exact herr p hp)
    (by
      simp only [List.map_map, List.nil_append]
      show (st.tasks.map (fun p => Task.id p.2)).Nodup
      rw [hkeys]
      exact hnd)
  show loadLoop (TaskRunner.mk [] []) ((st.tasks.map Prod.snd).map exportTask) = _
  rw [hload]
  simp only [List.nil_append, List.map_map]
  refine congrArg (fun l => (TaskRunner.mk l ([] : List String), (none : Option String))) ?_
  refine List.map_congr_left (fun p hp => ?_)
  have h := hids p hp
  simp only [Function.comp_apply]
  rw [← h]

/-- C2 counterexample: round-tripping `runnerC2`, whose completed task
carries validation metadata on its result, reconstructs a task that differs
from the original — the claimed field-for-field identity fails. -/
theorem c2_roundtrip_loses_metadata :
    (load_tasks_from_file (TaskRunner.mk [] []) (export_task_results runnerC2 5 none)).1.tasks
      = [("a", eraseResultMetadata completedTaskC2)]
    ∧ eraseResultMetadata completedTaskC2 ≠ completedTaskC2 := by
  constructor
  · rfl
  · decide

/-- C2 witness: the amended round trip at a concrete runner whose failed
task has a non-empty error message. -/
theorem c2_roundtrip_amended_witness :
    load_tasks_from_file (TaskRunner.mk [] []) (export_task_results runnerW 9 none)
      = (TaskRunner.mk
          (runnerW.tasks.map (fun p => (p.1, eraseResultMetadata p.2))) [], none) :=
  c2_roundtrip_amended runnerW 9 (by decide) (by decide) (by decide)

/-! ## Claim C9 -/

/-- With no language-pattern hit, detection falls back to `"python"`. -/
theorem detect_language_default (E : RegexEngine) (s : String)
    (h : ∀ p ∈ language_patterns, E.search p.2 s = false) :
    detect_language E s = "python" := by
  unfold detect_language
  have hfind : language_patterns.find? (fun p => E.search p.2 s) = none :=
    List.find?_eq_none.2 (fun p hp => by simp [h p hp])
  rw [hfind]

/-- With zero findall matches on every task pattern, detection falls back to
code generation. -/
theorem detect_task_type_default (E : RegexEngine) (s : String)
    (h : ∀ p ∈ task_patterns, ∀ pat ∈ p.2, E.findallCount pat s = 0) :
    detect_task_type E s = TaskType.code_generation := by
  have hs : ∀ p ∈ task_patterns, taskScore E s p.2 = 0 := by
    intro p hp
    unfold taskScore
    rw [List.sum_eq_zero]
    intro x hx
    rcases List.mem_map.1 hx with ⟨pat, hpat, rfl⟩
    exact h p hp pat hpat
  simp only [task_patterns, List.forall_mem_cons, List.forall_mem_nil] at hs
  obtain ⟨h1, h2, h3, h4, h5, h6, -⟩ := hs
  unfold detect_task_type
  simp only [task_patterns, List.map_cons, List.map_nil]
  rw [h1, h2, h3, h4, h5, h6]
  decide

/-- With no complexity keyword contained in the (lowered) prompt, complexity
is decided by word count and requirement count alone. -/
theorem assess_complexity_no_keywords (s : String) (reqs : List String)
    (hh : ∀ k ∈ high_keywords, pyContains s k = false)
    (hl : ∀ k ∈ low_keywords, pyContains s k = false) :
    assess_complexity s reqs =
      (if (pyWords s).length > 100 ∨ reqs.length > 5 then "high"
       else if (pyWords s).length < 20 ∧ reqs.length ≤ 2 then "low"
       else "medium") := by
  unfold assess_complexity
  have h1 : high_keywords.any (fun k => pyContains s k) = false :=
    List.any_eq_false.2 (fun k hk => by simp [hh k hk])
  have h2 : low_keywords.any (fun k => pyContains s k) = false :=
    List.any_eq_false.2 (fun k hk => by simp [hl k hk])
  rw [h1, h2]
  simp

/-- C9 (amended): `PromptParser.parse` is a total function, and on an
ambiguous prompt — no language-pattern hit, no task-pattern match, no
complexity keyword — the result has task type code-generation and language
python, while complexity falls back to `"medium"` only when the prompt is
neither short (fewer than 20 words with at most 2 extracted requirements
give `"low"`) nor long (more than 100 words or more than 5 requirements
give `"high"`). -/
theorem c9_parse_defaults (E : RegexEngine) (s : String)
    (hlang : ∀ p ∈ language_patterns, E.search p.2 (pyLower s) = false)
    (htask : ∀ p ∈ task_patterns, ∀ pat ∈ p.2, E.findallCount pat (pyLower s) = 0)
    (hhigh : ∀ k ∈ high_keywords, pyContains (pyLower s) k = false)
    (hlow : ∀ k ∈ low_keywords, pyContains (pyLower s) k = false) :
    (PromptParser.parse E s).task_type = TaskType.code_generation
    ∧ (PromptParser.parse E s).language = "python"
    ∧ (PromptParser.parse E s).complexity =
        (if (pyWords (pyLower s)).length > 100 ∨ (extract_requirements E s).length > 5 then "high"
         else if (pyWords (pyLower s)).length < 20 ∧ (extract_requirements E s).length ≤ 2 then "low"
         else "medium") := by
  unfold PromptParser.parse
  dsimp only
  exact ⟨detect_task_type_default E (pyLower s) htask,
         detect_language_default E (pyLower s) hlang,
         assess_complexity_no_keywords (pyLower s) _ hhigh hlow⟩

/-- C9 counterexample: the ambiguous one-word prompt `"zzz"` — no language
pattern, no task pattern, no complexity keyword applies — parses to
code-generation/python as claimed, but its complexity is `"low"`, not the
claimed `"medium"` default. -/
theorem c9_short_ambiguous_is_low :
    language_patterns.all
        (fun p => !(allMissEngine.search p.2 (pyLower ambiguousShortPrompt))) = true
    ∧ task_patterns.all
        (fun p => p.2.all
          (fun pat => allMissEngine.findallCount pat (pyLower ambiguousShortPrompt) == 0)) = true
    ∧ high_keywords.all
        (fun k => !(pyContains (pyLower ambiguousShortPrompt) k)) = true
    ∧ low_keywords.all
        (fun k => !(pyContains (pyLower ambiguousShortPrompt) k)) = true
    ∧ (PromptParser.parse allMissEngine ambiguousShortPrompt).task_type
        = TaskType.code_generation
    ∧ (PromptParser.parse allMissEngine ambiguousShortPrompt).language = "python"
    ∧ (PromptParser.parse allMissEngine ambiguousShortPrompt).complexity = "low"
    ∧ (PromptParser.parse allMissEngine ambiguousShortPrompt).complexity ≠ "medium" := by
  decide

/-- C9 witness: a twenty-word ambiguous prompt does get the medium
default. -/
theorem c9_parse_defaults_witness :
    (PromptParser.parse allMissEngine ambiguousMediumPrompt).task_type
        = TaskType.code_generation
    ∧ (PromptParser.parse allMissEngine ambiguousMediumPrompt).language = "python"
    ∧ (PromptParser.parse allMissEngine ambiguousMediumPrompt).complexity = "medium" := by
  have h := c9_parse_defaults allMissEngine ambiguousMediumPrompt
    (by decide) (by decide) (by decide) (by decide)
  refine ⟨h.1, h.2.1, ?_⟩
  rw [h.2.2]
  decide

end Codify
